import Mathlib

/-!
Shallow embedding of the tax-calculation core of the salary management
system (src/iwp.py, class SalaryApp): the slab walk
`_compute_tax_from_slabs` (lines 513-527) and the pure arithmetic part of
`_calculate_tax` (lines 529-580).  Currency amounts are modelled as exact
rationals; the Python float value float of infinity used as the last upper
bound of each slab table is modelled as `none` in an `Option` upper bound.
-/

namespace SalaryApp

/-- A slab is a pair (upper bound, rate); the upper bound `none` stands for
the Python value float of infinity. -/
abbrev Slab := Option ℚ × ℚ

/-- Embedding of `_compute_tax_from_slabs(self, taxable_income, slabs)`
(src/iwp.py lines 513-527).  Arguments: the slab list, the running `lower`
boundary (starts at `0.0`), the accumulator `tax` (starts at `0.0`) and
`remaining` (starts at `taxable_income`).  For a `none` (infinite) upper
bound, `upper - lower` is infinite, so
`max(0.0, min(upper - lower, remaining))` equals `max 0 remaining`; the
Python assignment `lower = upper` then sets `lower` to infinity, but a
valid slab table places the unbounded slab last, so the continuation never
reads `lower` again and we keep it unchanged. -/
def computeTaxFromSlabs : List Slab → ℚ → ℚ → ℚ → ℚ
  | [], _, tax, _ => tax
  | (some upper, rate) :: rest, lower, tax, remaining =>
    let slab_amount := max 0 (min (upper - lower) remaining)
    if slab_amount ≤ 0 then
      computeTaxFromSlabs rest upper tax remaining
    else
      let tax2 := tax + slab_amount * rate
      let remaining2 := remaining - slab_amount
      if remaining2 ≤ 0 then tax2
      else computeTaxFromSlabs rest upper tax2 remaining2
  | (none, rate) :: rest, lower, tax, remaining =>
    let slab_amount := max 0 remaining
    if slab_amount ≤ 0 then
      computeTaxFromSlabs rest lower tax remaining
    else
      let tax2 := tax + slab_amount * rate
      let remaining2 := remaining - slab_amount
      if remaining2 ≤ 0 then tax2
      else computeTaxFromSlabs rest lower tax2 remaining2

/-- The instance configuration set in `__init__` (src/iwp.py lines
134-151) and read, never written, by `_calculate_tax`. -/
structure AppState where
  NEW_REGIME_SLABS : List Slab
  OLD_REGIME_SLABS : List Slab
  OLD_REBATE_LIMIT : ℚ
  NEW_REBATE_LIMIT : ℚ
  CESS_RATE : ℚ

/-- The concrete configuration installed by `__init__`. -/
def initState : AppState where
  NEW_REGIME_SLABS :=
    [(some 300000, 0), (some 600000, 0.05), (some 900000, 0.10),
     (some 1200000, 0.15), (some 1500000, 0.20), (none, 0.30)]
  OLD_REGIME_SLABS :=
    [(some 250000, 0), (some 500000, 0.05), (some 1000000, 0.20),
     (none, 0.30)]
  OLD_REBATE_LIMIT := 500000
  NEW_REBATE_LIMIT := 700000
  CESS_RATE := 0.04

/-- The numeric inputs of `_calculate_tax` after the `to_float` parsing
step: monthly salary components, annual other income, the three deduction
amounts and the regime selector string read from `self.regime_var`. -/
structure SalaryInput where
  basic_month : ℚ
  hra_month : ℚ
  other_allow_month : ℚ
  other_income : ℚ
  std_ded : ℚ
  sec80c : ℚ
  sec80d : ℚ
  regime : String

/-- The values `_calculate_tax` computes and displays (src/iwp.py lines
544-598). -/
structure TaxBreakdown where
  gross_salary : ℚ
  other_income : ℚ
  gross_total_income : ℚ
  total_deductions : ℚ
  taxable_income : ℚ
  tax_before_cess : ℚ
  cess : ℚ
  total_tax : ℚ
  monthly_tds : ℚ

/-- The regime branch of `_calculate_tax` (src/iwp.py lines 560-566):
an if/else on the string comparison `regime == "new"`; every other string
falls into the else branch and selects the old-regime slabs and limit. -/
def selectRegime (s : AppState) (regime : String) : List Slab × ℚ :=
  if regime = "new" then (s.NEW_REGIME_SLABS, s.NEW_REBATE_LIMIT)
  else (s.OLD_REGIME_SLABS, s.OLD_REBATE_LIMIT)

/-- The pure computation of `_calculate_tax` (src/iwp.py lines 544-580),
written as explicit state passing: it reads the slab configuration from
the instance state and returns the breakdown together with the (unchanged)
state. -/
def calculateSt (s : AppState) (inp : SalaryInput) : TaxBreakdown × AppState :=
  let basic_annual := inp.basic_month * 12
  let hra_annual := inp.hra_month * 12
  let other_allow_annual := inp.other_allow_month * 12
  let gross_salary := basic_annual + hra_annual + other_allow_annual
  let gross_total_income := gross_salary + inp.other_income
  let total_deductions := inp.std_ded + inp.sec80c + inp.sec80d
  let taxable_income := max 0 (gross_total_income - total_deductions)
  let sl := selectRegime s inp.regime
  let tax_before_cess := computeTaxFromSlabs sl.1 0 0 taxable_income
  let tax_before_cess := if taxable_income ≤ sl.2 then 0 else tax_before_cess
  let cess := tax_before_cess * s.CESS_RATE
  let total_tax := tax_before_cess + cess
  let monthly_tds := total_tax / 12
  (⟨gross_salary, inp.other_income, gross_total_income, total_deductions,
    taxable_income, tax_before_cess, cess, total_tax, monthly_tds⟩, s)

/-- `_calculate_tax` as invoked on the configuration from `__init__`. -/
def calculate (inp : SalaryInput) : TaxBreakdown :=
  (calculateSt initState inp).1

/-- A valid slab table starting from running lower bound `lower`
(spec section 3): strictly increasing finite upper bounds, each rate a
fraction in [0, 1], and the final entry unbounded. -/
def ValidFrom : ℚ → List Slab → Prop
  | _, [] => False
  | _, [(none, r)] => 0 ≤ r ∧ r ≤ 1
  | _, (none, _) :: _ :: _ => False
  | lower, (some u, r) :: rest => lower < u ∧ 0 ≤ r ∧ r ≤ 1 ∧ ValidFrom u rest

/-- A valid slab table: partitions [0, infinity). -/
def ValidSlabs (slabs : List Slab) : Prop := ValidFrom 0 slabs

/-- The fully-filled contribution of the listed slabs: each finite slab
contributes its whole width times its rate (spec section 8, continuity at
boundaries). -/
def filledSum : List Slab → ℚ → ℚ
  | [], _ => 0
  | (some u, r) :: rest, lower => (u - lower) * r + filledSum rest u
  | (none, _) :: _, _ => 0

/-- The slab walk with the early-exit test removed: the loop always runs
through every slab of the table. -/
def computeTaxFromSlabsFull : List Slab → ℚ → ℚ → ℚ → ℚ
  | [], _, tax, _ => tax
  | (some upper, rate) :: rest, lower, tax, remaining =>
    let slab_amount := max 0 (min (upper - lower) remaining)
    if slab_amount ≤ 0 then
      computeTaxFromSlabsFull rest upper tax remaining
    else
      computeTaxFromSlabsFull rest upper (tax + slab_amount * rate)
        (remaining - slab_amount)
  | (none, rate) :: rest, lower, tax, remaining =>
    let slab_amount := max 0 remaining
    if slab_amount ≤ 0 then
      computeTaxFromSlabsFull rest lower tax remaining
    else
      computeTaxFromSlabsFull rest lower (tax + slab_amount * rate)
        (remaining - slab_amount)

/-- With nothing left to tax, every slab amount is clamped to 0 and the
walk returns the accumulator unchanged. -/
lemma computeTaxFromSlabs_of_nonpos :
    ∀ (slabs : List Slab) (lower tax remaining : ℚ), remaining ≤ 0 →
      computeTaxFromSlabs slabs lower tax remaining = tax := by
  intro slabs
  induction slabs with
  | nil => intro lower tax remaining _; rfl
  | cons hd rest ih =>
    intro lower tax remaining hr
    obtain ⟨upper, rate⟩ := hd
    cases upper with
    | some u =>
      have h1 : max 0 (min (u - lower) remaining) ≤ 0 :=
        max_le le_rfl ((min_le_right _ _).trans hr)
      simp only [computeTaxFromSlabs, if_pos h1]
      exact ih u tax remaining hr
    | none =>
      have h1 : max 0 remaining ≤ 0 := max_le le_rfl hr
      simp only [computeTaxFromSlabs, if_pos h1]
      exact ih lower tax remaining hr

/-- With non-negative rates the walk never decreases the accumulator. -/
lemma le_computeTaxFromSlabs :
    ∀ (slabs : List Slab) (lower tax remaining : ℚ),
      (∀ p ∈ slabs, 0 ≤ p.2) →
      tax ≤ computeTaxFromSlabs slabs lower tax remaining := by
  intro slabs
  induction slabs with
  | nil => intro lower tax remaining _; exact le_rfl
  | cons hd rest ih =>
    intro lower tax remaining hrt
    obtain ⟨upper, rate⟩ := hd
    have hrate : (0:ℚ) ≤ rate := hrt (upper, rate) (List.mem_cons_self _ _)
    have hrt2 : ∀ p ∈ rest, (0:ℚ) ≤ p.2 :=
      fun p hp => hrt p (List.mem_cons_of_mem _ hp)
    cases upper with
    | some u =>
      simp only [computeTaxFromSlabs]
      split_ifs with h1 h2
      · exact ih u tax remaining hrt2
      · have : 0 ≤ max 0 (min (u - lower) remaining) * rate :=
          mul_nonneg (le_max_left _ _) hrate
        linarith
      · have h3 : tax ≤ tax + max 0 (min (u - lower) remaining) * rate := by
          have : 0 ≤ max 0 (min (u - lower) remaining) * rate :=
            mul_nonneg (le_max_left _ _) hrate
          linarith
        exact h3.trans (ih u _ _ hrt2)
    | none =>
      simp only [computeTaxFromSlabs]
      split_ifs with h1 h2
      · exact ih lower tax remaining hrt2
      · have : 0 ≤ max 0 remaining * rate :=
          mul_nonneg (le_max_left _ _) hrate
        linarith
      · have h3 : tax ≤ tax + max 0 remaining * rate := by
          have : 0 ≤ max 0 remaining * rate :=
            mul_nonneg (le_max_left _ _) hrate
          linarith
        exact h3.trans (ih lower _ _ hrt2)

/-- The min function is 1-Lipschitz: increasing the second argument by a
delta increases the min by at most the delta. -/
lemma sub_min_le_sub_min {w ra rb : ℚ} (hab : ra ≤ rb) :
    ra - min w ra ≤ rb - min w rb := by
  rcases le_total w ra with h1 | h1 <;> rcases le_total w rb with h2 | h2 <;>
    simp [min_eq_left, min_eq_right, h1, h2] <;> linarith


/-- Monotonicity of the slab walk, generalized over the accumulator and
the remaining amount; only non-negativity of the rates is needed. -/
lemma computeTaxFromSlabs_mono :
    ∀ (slabs : List Slab) (lower taxa taxb ra rb : ℚ),
      (∀ p ∈ slabs, 0 ≤ p.2) → taxa ≤ taxb → ra ≤ rb →
      computeTaxFromSlabs slabs lower taxa ra ≤
        computeTaxFromSlabs slabs lower taxb rb := by
  intro slabs
  induction slabs with
  | nil => intro lower taxa taxb ra rb _ htax _; exact htax
  | cons hd rest ih =>
    intro lower taxa taxb ra rb hrt htax hab
    obtain ⟨upper, rate⟩ := hd
    have hrate : (0:ℚ) ≤ rate := hrt (upper, rate) (List.mem_cons_self _ _)
    have hrt2 : ∀ p ∈ rest, (0:ℚ) ≤ p.2 :=
      fun p hp => hrt p (List.mem_cons_of_mem _ hp)
    cases upper with
    | some u =>
      set sa := max 0 (min (u - lower) ra) with hsa_def
      set sb := max 0 (min (u - lower) rb) with hsb_def
      have hsab : sa ≤ sb :=
        max_le_max le_rfl (min_le_min le_rfl hab)
      have hsa0 : 0 ≤ sa := le_max_left _ _
      have hkey : ra - sa ≤ rb - sb := by
        rcases le_or_lt (min (u - lower) ra) 0 with hma | hma
        · rcases le_or_lt (min (u - lower) rb) 0 with hmb | hmb
          · rw [hsa_def, hsb_def, max_eq_left hma, max_eq_left hmb]
            simpa using hab
          · rw [hsa_def, hsb_def, max_eq_left hma, max_eq_right hmb.le]
            have hwa : ra ≤ 0 := by
              rcases min_le_iff.mp hma with h | h
              · exfalso
                have : min (u - lower) rb ≤ u - lower := min_le_left _ _
                linarith
              · exact h
            have : min (u - lower) rb ≤ rb := min_le_right _ _
            linarith
        · rw [hsa_def, hsb_def, max_eq_right hma.le,
            max_eq_right (le_trans hma.le (min_le_min le_rfl hab))]
          exact sub_min_le_sub_min hab
      have htaxstep : taxa + sa * rate ≤ taxb + sb * rate := by
        have : sa * rate ≤ sb * rate := mul_le_mul_of_nonneg_right hsab hrate
        linarith
      simp only [computeTaxFromSlabs]
      rw [← hsa_def, ← hsb_def]
      by_cases h1 : sa ≤ 0 <;> by_cases h3 : sb ≤ 0
      · rw [if_pos h1, if_pos h3]
        exact ih u taxa taxb ra rb hrt2 htax hab
      · -- left pays nothing here; in fact ra is already exhausted
        rw [if_pos h1, if_neg h3]
        have hra0 : ra ≤ 0 := by
          by_contra hc
          push_neg at hc
          have hw : 0 < u - lower := by
            by_contra hw
            push_neg at hw
            have hmb : min (u - lower) rb ≤ 0 := (min_le_left _ _).trans hw
            exact h3 (max_le le_rfl hmb)
          have : 0 < min (u - lower) ra := lt_min hw hc
          have : 0 < sa := lt_of_lt_of_le this (le_max_right _ _)
          linarith
        rw [computeTaxFromSlabs_of_nonpos rest u taxa ra hra0]
        have hb : taxb ≤ taxb + sb * rate := by
          have : 0 ≤ sb * rate := mul_nonneg (hsa0.trans hsab) hrate
          linarith
        by_cases h4 : rb - sb ≤ 0
        · rw [if_pos h4]; exact htax.trans hb
        · rw [if_neg h4]
          exact (htax.trans hb).trans (le_computeTaxFromSlabs rest u _ _ hrt2)
      · exact absurd (hsab.trans h3) h1
      · rw [if_neg h1, if_neg h3]
        by_cases h2 : ra - sa ≤ 0 <;> by_cases h4 : rb - sb ≤ 0
        · rw [if_pos h2, if_pos h4]; exact htaxstep
        · rw [if_pos h2, if_neg h4]
          exact htaxstep.trans (le_computeTaxFromSlabs rest u _ _ hrt2)
        · exfalso; push_neg at h2; linarith
        · rw [if_neg h2, if_neg h4]
          exact ih u _ _ _ _ hrt2 htaxstep hkey
    | none =>
      have hnab : max 0 ra ≤ max 0 rb := max_le_max le_rfl hab
      have htaxstep : taxa + max 0 ra * rate ≤ taxb + max 0 rb * rate := by
        have : max 0 ra * rate ≤ max 0 rb * rate :=
          mul_le_mul_of_nonneg_right hnab hrate
        linarith
      simp only [computeTaxFromSlabs]
      by_cases h1 : max 0 ra ≤ 0 <;> by_cases h3 : max 0 rb ≤ 0
      · rw [if_pos h1, if_pos h3]
        exact ih lower taxa taxb ra rb hrt2 htax hab
      · rw [if_pos h1, if_neg h3]
        have hra0 : ra ≤ 0 := (max_le_iff.mp h1).2
        rw [computeTaxFromSlabs_of_nonpos rest lower taxa ra hra0]
        have hb : taxb ≤ taxb + max 0 rb * rate := by
          have : 0 ≤ max 0 rb * rate := mul_nonneg (le_max_left _ _) hrate
          linarith
        by_cases h4 : rb - max 0 rb ≤ 0
        · rw [if_pos h4]; exact htax.trans hb
        · rw [if_neg h4]
          exact (htax.trans hb).trans
            (le_computeTaxFromSlabs rest lower _ _ hrt2)
      · exact absurd (hnab.trans h3) h1
      · rw [if_neg h1, if_neg h3]
        have hea : max 0 ra = ra := by
          have hra : 0 < ra := by
            by_contra hc
            push_neg at hc
            exact h1 (by rw [max_eq_left hc])
          exact max_eq_right hra.le
        have heb : max 0 rb = rb := by
          have hrb : 0 < rb := by
            by_contra hc
            push_neg at hc
            exact h3 (by rw [max_eq_left hc])
          exact max_eq_right hrb.le
        rw [if_pos (by rw [hea]; simp), if_pos (by rw [heb]; simp)]
        exact htaxstep

/-- Rates of a valid slab table are non-negative. -/
lemma validFrom_rates_nonneg :
    ∀ (slabs : List Slab) (lower : ℚ), ValidFrom lower slabs →
      ∀ p ∈ slabs, 0 ≤ p.2 := by
  intro slabs
  induction slabs with
  | nil => intro lower hv; simp [ValidFrom] at hv
  | cons hd rest ih =>
    intro lower hv p hp
    obtain ⟨upper, rate⟩ := hd
    cases upper with
    | some u =>
      simp only [ValidFrom] at hv
      rcases List.mem_cons.mp hp with h | h
      · rw [h]; exact hv.2.1
      · exact ih u hv.2.2.2 p h
    | none =>
      cases rest with
      | nil =>
        simp only [ValidFrom] at hv
        rcases List.mem_cons.mp hp with h | h
        · rw [h]; exact hv.1
        · simp at h
      | cons hd2 rest2 => simp [ValidFrom] at hv

/-- In a valid slab table the running lower bound is below every later
finite upper bound. -/
lemma validFrom_lt :
    ∀ (A : List Slab) (lower u r : ℚ) (B : List Slab),
      ValidFrom lower (A ++ (some u, r) :: B) → lower < u := by
  intro A
  induction A with
  | nil =>
    intro lower u r B hv
    simp only [List.nil_append, ValidFrom] at hv
    exact hv.1
  | cons hd A2 ih =>
    intro lower u r B hv
    obtain ⟨upper0, rate0⟩ := hd
    cases upper0 with
    | some u0 =>
      simp only [List.cons_append, ValidFrom] at hv
      exact hv.1.trans (ih u0 u r B hv.2.2.2)
    | none =>
      exfalso
      cases A2 <;> simp [ValidFrom] at hv

/-- One positive step of the walk when the slab is filled completely and
income is left over. -/
lemma computeTaxFromSlabs_cons_pos {u lower remaining : ℚ} (rate tax : ℚ)
    (rest : List Slab) (hw : 0 < u - lower) (hwr : u - lower ≤ remaining)
    (hrem : 0 < remaining - (u - lower)) :
    computeTaxFromSlabs ((some u, rate) :: rest) lower tax remaining
      = computeTaxFromSlabs rest u (tax + (u - lower) * rate)
          (remaining - (u - lower)) := by
  simp only [computeTaxFromSlabs, min_eq_left hwr, max_eq_right hw.le,
    if_neg (not_le.mpr hw), if_neg (not_le.mpr hrem)]

/-- Walking a valid table with exactly the income needed to reach a finite
boundary accrues precisely the fully-filled contributions of the slabs up
to that boundary. -/
lemma computeTaxFromSlabs_boundary :
    ∀ (A : List Slab) (lower tax u r : ℚ) (B : List Slab),
      ValidFrom lower (A ++ (some u, r) :: B) →
      computeTaxFromSlabs (A ++ (some u, r) :: B) lower tax (u - lower)
        = tax + filledSum (A ++ [(some u, r)]) lower := by
  intro A
  induction A with
  | nil =>
    intro lower tax u r B hv
    simp only [List.nil_append, ValidFrom] at hv
    have hlt : lower < u := hv.1
    simp only [List.nil_append, computeTaxFromSlabs, min_self,
      max_eq_right (by linarith : (0:ℚ) ≤ u - lower),
      if_neg (not_le.mpr (by linarith : (0:ℚ) < u - lower)), sub_self,
      if_pos le_rfl, filledSum]
    ring
  | cons hd A2 ih =>
    intro lower tax u r B hv
    obtain ⟨upper0, rate0⟩ := hd
    cases upper0 with
    | some u0 =>
      simp only [List.cons_append, ValidFrom] at hv
      have hlt0 : lower < u0 := hv.1
      have hlt : u0 < u := validFrom_lt A2 u0 u r B hv.2.2.2
      rw [List.cons_append,
        computeTaxFromSlabs_cons_pos rate0 tax _ (by linarith)
          (by linarith) (by linarith)]
      have hrw : u - lower - (u0 - lower) = u - u0 := by ring
      rw [hrw, ih u0 (tax + (u0 - lower) * rate0) u r B hv.2.2.2]
      simp only [List.cons_append, filledSum, List.append_eq]
      ring
    | none =>
      exfalso
      cases A2 <;> simp [ValidFrom] at hv

/-- The exhaustive walk also leaves the accumulator alone once nothing is
left to tax. -/
lemma computeTaxFromSlabsFull_of_nonpos :
    ∀ (slabs : List Slab) (lower tax remaining : ℚ), remaining ≤ 0 →
      computeTaxFromSlabsFull slabs lower tax remaining = tax := by
  intro slabs
  induction slabs with
  | nil => intro lower tax remaining _; rfl
  | cons hd rest ih =>
    intro lower tax remaining hr
    obtain ⟨upper, rate⟩ := hd
    cases upper with
    | some u =>
      have h1 : max 0 (min (u - lower) remaining) ≤ 0 :=
        max_le le_rfl ((min_le_right _ _).trans hr)
      simp only [computeTaxFromSlabsFull, if_pos h1]
      exact ih u tax remaining hr
    | none =>
      have h1 : max 0 remaining ≤ 0 := max_le le_rfl hr
      simp only [computeTaxFromSlabsFull, if_pos h1]
      exact ih lower tax remaining hr

/-- The early-exit walk and the exhaustive walk agree everywhere. -/
lemma computeTaxFromSlabs_eq_full :
    ∀ (slabs : List Slab) (lower tax remaining : ℚ),
      computeTaxFromSlabs slabs lower tax remaining =
        computeTaxFromSlabsFull slabs lower tax remaining := by
  intro slabs
  induction slabs with
  | nil => intro lower tax remaining; rfl
  | cons hd rest ih =>
    intro lower tax remaining
    obtain ⟨upper, rate⟩ := hd
    cases upper with
    | some u =>
      simp only [computeTaxFromSlabs, computeTaxFromSlabsFull]
      by_cases h1 : max 0 (min (u - lower) remaining) ≤ 0
      · rw [if_pos h1, if_pos h1]; exact ih u tax remaining
      · rw [if_neg h1, if_neg h1]
        by_cases h2 : remaining - max 0 (min (u - lower) remaining) ≤ 0
        · rw [if_pos h2, computeTaxFromSlabsFull_of_nonpos rest u _ _ h2]
        · rw [if_neg h2]; exact ih u _ _
    | none =>
      simp only [computeTaxFromSlabs, computeTaxFromSlabsFull]
      by_cases h1 : max 0 remaining ≤ 0
      · rw [if_pos h1, if_pos h1]; exact ih lower tax remaining
      · rw [if_neg h1, if_neg h1]
        by_cases h2 : remaining - max 0 remaining ≤ 0
        · rw [if_pos h2, computeTaxFromSlabsFull_of_nonpos rest lower _ _ h2]
        · rw [if_neg h2]; exact ih lower _ _

/-- Above the 700000 threshold the new-regime walk collects at least the
15000 owed on the second slab, so the pre-cess tax is positive. -/
lemma newRegimeTax_pos (t : ℚ) (ht : 700000 < t) :
    0 < computeTaxFromSlabs initState.NEW_REGIME_SLABS 0 0 t := by
  have e0 : initState.NEW_REGIME_SLABS =
      [(some 300000, 0), (some 600000, 0.05), (some 900000, 0.10),
       (some 1200000, 0.15), (some 1500000, 0.20), (none, 0.30)] := rfl
  rw [e0, computeTaxFromSlabs_cons_pos 0 0 _ (by norm_num) (by linarith)
    (by linarith)]
  rw [show (0:ℚ) + (300000 - 0) * 0 = 0 by norm_num,
    show t - ((300000:ℚ) - 0) = t - 300000 by ring]
  rw [computeTaxFromSlabs_cons_pos 0.05 0 _ (by norm_num) (by linarith)
    (by linarith)]
  rw [show (0:ℚ) + (600000 - 300000) * 0.05 = 15000 by norm_num,
    show t - (300000:ℚ) - ((600000:ℚ) - 300000) = t - 600000 by ring]
  have hrts : ∀ p ∈ ([(some 900000, 0.10), (some 1200000, 0.15),
      (some 1500000, 0.20), (none, 0.30)] : List Slab), (0:ℚ) ≤ p.2 := by
    intro p hp
    fin_cases hp <;> norm_num
  calc (0:ℚ) < 15000 := by norm_num
    _ ≤ _ := le_computeTaxFromSlabs _ 600000 15000 (t - 600000) hrts

/-- The pre-cess tax of a breakdown is the slab walk on the clamped
taxable income, zeroed below the selected rebate limit. -/
lemma calculate_tax_before_cess (inp : SalaryInput) :
    (calculate inp).tax_before_cess =
      if (calculate inp).taxable_income ≤ (selectRegime initState inp.regime).2
      then 0
      else computeTaxFromSlabs (selectRegime initState inp.regime).1 0 0
        (calculate inp).taxable_income := rfl

/-- The taxable income of a breakdown is the clamped difference of gross
total income and total deductions. -/
lemma calculate_taxable_income (inp : SalaryInput) :
    (calculate inp).taxable_income =
      max 0 ((calculate inp).gross_total_income -
        (calculate inp).total_deductions) := rfl

/-- The configuration from `__init__` is a valid new-regime slab table. -/
lemma validSlabs_new : ValidSlabs initState.NEW_REGIME_SLABS := by
  norm_num [ValidSlabs, ValidFrom, initState]

/-- C1: on basicMonthly=100000, all other income and deductions 0 except
the 50000 standard deduction, under regime "new", `calculate` returns
grossSalary=1200000, taxableIncome=1150000, taxBeforeCess=82500,
cess=3300, totalTax=85800 and monthlyWithholding=7150; the rebate does not
apply because the taxable income 1150000 exceeds the 700000 threshold. -/
theorem scenario1_new_regime_breakdown :
    calculate ⟨100000, 0, 0, 0, 50000, 0, 0, "new"⟩ =
      ⟨1200000, 0, 1200000, 50000, 1150000, 82500, 3300, 85800, 7150⟩ ∧
    700000 < (calculate ⟨100000, 0, 0, 0, 50000, 0, 0, "new"⟩).taxable_income := by
  constructor <;>
    norm_num [calculate, calculateSt, initState, selectRegime,
      computeTaxFromSlabs]

/-- C2: under regime "new", a taxable income at or below 700000 forces the
pre-cess tax to exactly 0, while any taxable income strictly above 700000
leaves a strictly positive pre-cess tax: the rebate is a cliff at exactly
700000, not a phase-out. -/
theorem rebate_cliff_new_regime (inp : SalaryInput)
    (hreg : inp.regime = "new") :
    ((calculate inp).taxable_income ≤ 700000 →
      (calculate inp).tax_before_cess = 0) ∧
    (700000 < (calculate inp).taxable_income →
      0 < (calculate inp).tax_before_cess) := by
  have hshape := calculate_tax_before_cess inp
  rw [hreg] at hshape
  have hsel1 : (selectRegime initState "new").1 = initState.NEW_REGIME_SLABS :=
    rfl
  have hsel2 : (selectRegime initState "new").2 = 700000 := rfl
  rw [hsel1, hsel2] at hshape
  constructor
  · intro h
    rw [hshape, if_pos h]
  · intro h
    rw [hshape, if_neg (not_le.mpr h)]
    exact newRegimeTax_pos _ h

/-- C2 witness: with other annual income 750000 the taxable income is
exactly 700000 and the pre-cess tax is 0; with 750001 it is 700001 and the
pre-cess tax is positive. -/
theorem rebate_cliff_new_regime_witness :
    (calculate ⟨0, 0, 0, 750000, 50000, 0, 0, "new"⟩).tax_before_cess = 0 ∧
    0 < (calculate ⟨0, 0, 0, 750001, 50000, 0, 0, "new"⟩).tax_before_cess := by
  constructor
  · exact (rebate_cliff_new_regime ⟨0, 0, 0, 750000, 50000, 0, 0, "new"⟩
      rfl).1 (by norm_num [calculate, calculateSt, initState, selectRegime])
  · exact (rebate_cliff_new_regime ⟨0, 0, 0, 750001, 50000, 0, 0, "new"⟩
      rfl).2 (by norm_num [calculate, calculateSt, initState, selectRegime])

/-- C3: the bracket walk is monotone: on any valid slab table, a larger
non-negative taxable income never yields a smaller tax. -/
theorem computeBracketTax_monotone (S : List Slab) (a b : ℚ)
    (hS : ValidSlabs S) (_h0 : 0 ≤ a) (hab : a ≤ b) :
    computeTaxFromSlabs S 0 0 a ≤ computeTaxFromSlabs S 0 0 b :=
  computeTaxFromSlabs_mono S 0 0 0 a b (validFrom_rates_nonneg S 0 hS)
    le_rfl hab

/-- C3 witness: monotonicity instantiated on the new-regime table at the
pair 500000 and 800000. -/
theorem computeBracketTax_monotone_witness :
    ValidSlabs initState.NEW_REGIME_SLABS ∧ (0:ℚ) ≤ 500000 ∧
    (500000:ℚ) ≤ 800000 ∧
    computeTaxFromSlabs initState.NEW_REGIME_SLABS 0 0 500000 ≤
      computeTaxFromSlabs initState.NEW_REGIME_SLABS 0 0 800000 :=
  ⟨validSlabs_new, by norm_num, by norm_num,
    computeBracketTax_monotone _ 500000 800000 validSlabs_new (by norm_num)
      (by norm_num)⟩

/-- C4: in every breakdown produced by `calculate`, the cess is exactly
0.04 times the (post-rebate) pre-cess tax, and the total tax is their
sum. -/
theorem cess_proportional_and_total (inp : SalaryInput) :
    (calculate inp).cess = (calculate inp).tax_before_cess * 0.04 ∧
    (calculate inp).total_tax =
      (calculate inp).tax_before_cess + (calculate inp).cess :=
  ⟨rfl, rfl⟩

/-- C5: the bracket walk is continuous at every slab boundary: evaluated
at a finite upper bound of a valid table, it returns exactly the sum of
the fully-filled contributions of the slabs up to and including that
boundary. -/
theorem computeBracketTax_boundary (A : List Slab) (u r : ℚ) (B : List Slab)
    (hV : ValidSlabs (A ++ (some u, r) :: B)) :
    computeTaxFromSlabs (A ++ (some u, r) :: B) 0 0 u =
      filledSum (A ++ [(some u, r)]) 0 := by
  have h := computeTaxFromSlabs_boundary A 0 0 u r B hV
  rw [sub_zero] at h
  rw [h, zero_add]

/-- C5 witness: the new-regime table at the 900000 boundary. -/
theorem computeBracketTax_boundary_witness :
    ValidSlabs ([(some 300000, 0), (some 600000, 0.05)] ++
      ((some 900000, 0.10) : Slab) :: [(some 1200000, 0.15),
        (some 1500000, 0.20), (none, 0.30)]) ∧
    computeTaxFromSlabs ([(some 300000, 0), (some 600000, 0.05)] ++
        ((some 900000, 0.10) : Slab) :: [(some 1200000, 0.15),
          (some 1500000, 0.20), (none, 0.30)]) 0 0 900000 =
      filledSum ([(some 300000, 0), (some 600000, 0.05)] ++
        [((some 900000, 0.10) : Slab)]) 0 := by
  have hS : ValidSlabs ([(some 300000, 0), (some 600000, 0.05)] ++
      ((some 900000, 0.10) : Slab) :: [(some 1200000, 0.15),
        (some 1500000, 0.20), (none, 0.30)]) := by
    norm_num [ValidSlabs, ValidFrom]
  exact ⟨hS, computeBracketTax_boundary _ _ _ _ hS⟩

/-- C6: removing the early exit from the slab walk changes nothing: on any
non-negative taxable income and valid table, the walk that breaks once the
remaining amount reaches 0 agrees with the walk that continues through
every slab. -/
theorem earlyBreak_is_optimization (S : List Slab) (t : ℚ)
    (_h0 : 0 ≤ t) (_hS : ValidSlabs S) :
    computeTaxFromSlabs S 0 0 t = computeTaxFromSlabsFull S 0 0 t :=
  computeTaxFromSlabs_eq_full S 0 0 t

/-- C6 witness: the two walks agree on the new-regime table at taxable
income 1000000. -/
theorem earlyBreak_is_optimization_witness :
    (0:ℚ) ≤ 1000000 ∧ ValidSlabs initState.NEW_REGIME_SLABS ∧
    computeTaxFromSlabs initState.NEW_REGIME_SLABS 0 0 1000000 =
      computeTaxFromSlabsFull initState.NEW_REGIME_SLABS 0 0 1000000 :=
  ⟨by norm_num, validSlabs_new,
    earlyBreak_is_optimization _ 1000000 (by norm_num) validSlabs_new⟩

/-- C7: for every input, the taxable income entering the slab walk is the
clamp max(0, grossTotalIncome - totalDeductions), hence non-negative; the
pre-cess tax is the walk applied to exactly that clamped value. -/
theorem taxable_income_clamped (inp : SalaryInput) :
    (calculate inp).taxable_income =
      max 0 ((calculate inp).gross_total_income -
        (calculate inp).total_deductions) ∧
    0 ≤ (calculate inp).taxable_income ∧
    (calculate inp).tax_before_cess =
      (if (calculate inp).taxable_income ≤
          (selectRegime initState inp.regime).2 then 0
       else computeTaxFromSlabs (selectRegime initState inp.regime).1 0 0
         (calculate inp).taxable_income) :=
  ⟨calculate_taxable_income inp,
    (calculate_taxable_income inp) ▸ le_max_left _ _,
    calculate_tax_before_cess inp⟩

/-- C8: the computation reads the slab configuration and never writes it:
the state after a call is the state before it, and a second call on the
post-state with the same input returns the identical breakdown. -/
theorem calculate_no_hidden_state (s : AppState) (inp : SalaryInput) :
    (calculateSt s inp).2 = s ∧
    (calculateSt (calculateSt s inp).2 inp).1 = (calculateSt s inp).1 :=
  ⟨rfl, rfl⟩

/-- C9: the slab walk is total on negative inputs as well: a negative
taxable income yields exactly zero tax on any slab table, because the
max(0, min(upper - lower, remaining)) guard clamps every slab amount
to 0. -/
theorem negative_income_zero_tax (slabs : List Slab) (t : ℚ) (ht : t < 0) :
    computeTaxFromSlabs slabs 0 0 t = 0 :=
  computeTaxFromSlabs_of_nonpos slabs 0 0 t ht.le

/-- C9 witness: taxable income -5 on the old-regime table. -/
theorem negative_income_zero_tax_witness :
    (-5:ℚ) < 0 ∧
    computeTaxFromSlabs initState.OLD_REGIME_SLABS 0 0 (-5) = 0 :=
  ⟨by norm_num, negative_income_zero_tax _ (-5) (by norm_num)⟩

/-- C10: the regime selector is an if/else on the exact string "new":
every other string, "old" or not, selects the old-regime slabs with the
500000 rebate limit, and only "new" selects the new-regime slabs with the
700000 limit. -/
theorem regime_selector_exact_match (r : String) (hr : r ≠ "new") :
    selectRegime initState r = (initState.OLD_REGIME_SLABS, 500000) ∧
    selectRegime initState "new" = (initState.NEW_REGIME_SLABS, 700000) := by
  constructor
  · simp only [selectRegime, if_neg hr]
    rfl
  · rfl

/-- C10 witness: the selector applied to the string "old". -/
theorem regime_selector_exact_match_witness :
    (("old" : String) ≠ "new") ∧
    (selectRegime initState "old" = (initState.OLD_REGIME_SLABS, 500000) ∧
      selectRegime initState "new" = (initState.NEW_REGIME_SLABS, 700000)) := by
  have h : ("old" : String) ≠ "new" := by decide
  exact ⟨h, regime_selector_exact_match "old" h⟩

end SalaryApp
